import Mathlib

/-!
Shallow embedding of the account/transaction subsystem of the Covsj/gokit
repository (packages `ievm` and `evm`), together with theorems settling the
frozen claims about it.

Conventions of the embedding:
* Go `*big.Int` values become `Int`; `uint64` values become `Nat`.
* Go `[]byte` becomes `List Nat`.
* A nil-able Go pointer argument (`*big.Int`, `*uint64`) becomes an `Option`.
* A Go function returning `(T, error)` becomes `Except String T`; the error
  strings reproduce the `fmt.Errorf` format strings of the source (with the
  `%s`/`%w` holes filled by concatenation).
* The remote RPC client (go-ethereum `ethclient.Client`) is an external
  collaborator; its responses are modelled by a `Chain` record of oracle
  values, one per RPC method used by the code under study.
* Ethereum addresses are represented by their hex strings; `common.HexToAddress`
  keeps the validated source string as the representation.
-/

namespace Gokit

/-- Character class `[0-9a-fA-F]` of the address regular expression in
`ievm/common.go` (`IsValidAddress`). -/
def isHexDigitChar (c : Char) : Bool :=
  ('0' ≤ c && c ≤ '9') || ('a' ≤ c && c ≤ 'f') || ('A' ≤ c && c ≤ 'F')

/-- `IsValidAddress` from `ievm/common.go` (string case): the regular
expression `^0x[0-9a-fA-F]\x7b40\x7d$` as a direct matcher on the character
list of the string. -/
def IsValidAddress (s : String) : Bool :=
  match s.data with
  | c0 :: c1 :: rest =>
    c0 == '0' && c1 == 'x' && rest.length == 40 && rest.all isHexDigitChar
  | _ => false

/-- Drop leading `'0'` characters while at least two characters remain,
mirroring the `for len(intPart) > 1 && intPart[0] == '0'` loop of
`ToDecimalsFloat` in `ievm/common.go`. -/
def stripLeadingZeroChars : List Char → List Char
  | '0' :: c :: rest => stripLeadingZeroChars (c :: rest)
  | l => l

/-- Split a character list at the first `'.'` (the dot itself is dropped),
mirroring `strings.IndexByte(s, '.')` followed by the two slices in
`ToDecimalsFloat`.  When no dot occurs the whole input is the integer part
and the fractional part is empty. -/
def splitAtDot : List Char → List Char × List Char
  | [] => ([], [])
  | '.' :: rest => ([], rest)
  | c :: rest =>
    let p := splitAtDot rest
    (c :: p.1, p.2)

/-- Accumulator loop for base-10 digit parsing (`big.Int.SetString` base 10,
digits only). -/
def digitsValAux : Nat → List Char → Option Nat
  | acc, [] => some acc
  | acc, c :: rest =>
    if c.isDigit then digitsValAux (acc * 10 + (c.toNat - '0'.toNat)) rest
    else none

/-- Base-10 value of a non-empty all-digit character list; `none` otherwise. -/
def digitsVal (l : List Char) : Option Nat :=
  match l with
  | [] => none
  | _ => digitsValAux 0 l

/-- `big.Int.SetString(merged, 10)`: an optional sign followed by at least one
decimal digit (base 10 admits no underscores or other characters). -/
def parseBase10 (l : List Char) : Option Int :=
  match l with
  | '-' :: rest => (digitsVal rest).map (fun n => -(n : Int))
  | '+' :: rest => (digitsVal rest).map (fun n => (n : Int))
  | _ => (digitsVal l).map (fun n => (n : Int))

/-- `ToDecimalsFloat` from `ievm/common.go`: convert an arbitrary-precision
decimal string to an integer amount at `decimals` fractional places,
truncating (never rounding) beyond the target precision.  `decimals` is
non-negative (the Go `int64` argument would make the slice expression panic
when negative, so the function's defined domain is `decimals ≥ 0`). -/
def ToDecimalsFloat (s : String) (decimals : Nat) : Except String Int :=
  if s = "" then .ok 0
  else
    let cs := s.data
    let signStripped : Bool × List Char :=
      match cs with
      | '-' :: rest => (true, rest)
      | '+' :: rest => (false, rest)
      | l => (false, l)
    let neg := signStripped.1
    let parts := splitAtDot signStripped.2
    let intPart := stripLeadingZeroChars parts.1
    let fracPart :=
      if decimals < parts.2.length then parts.2.take decimals
      else parts.2 ++ List.replicate (decimals - parts.2.length) '0'
    let merged := intPart ++ fracPart
    let merged := if merged = [] then ['0'] else merged
    match parseBase10 merged with
    | none => .error ("非法十进制: " ++ s)
    | some v => .ok (if neg then -v else v)

end Gokit

namespace Gokit

deriving instance DecidableEq for Except

/-- Responses of the remote ledger RPC client (go-ethereum `ethclient.Client`),
an external collaborator.  One oracle value per RPC method that the code under
study consumes. -/
structure Chain where
  pendingNonce : Except String Nat
  suggestGasPrice : Except String Int
  suggestGasTipCap : Except String Int
  estimateGasRPC : Except String Nat
deriving DecidableEq

/-- `IAccount` from `ievm/account_core.go`, restricted to the fields the
claims exercise: the discovered chain id, the derived address (a hex string),
and the RPC connection, modelled by its `Chain` of responses.  The private
key is not needed by the transaction-field claims: `types.SignTx` attaches a
signature and leaves every payload field unchanged. -/
structure IAccount where
  chainId : Int
  address : String
  chain : Chain
deriving DecidableEq

/-- `IAccount.Nonce` from `ievm/account_core.go` second rendition /
`account.go`: validate the address, then query the pending nonce. -/
def IAccount.Nonce (a : IAccount) (address : String) : Except String Nat :=
  if ¬ IsValidAddress address then .error ("无效地址: " ++ address)
  else a.chain.pendingNonce

/-- `IAccount.SuggestGasPrice`: legacy gas-price suggestion from the client. -/
def IAccount.SuggestGasPrice (a : IAccount) : Except String Int :=
  a.chain.suggestGasPrice

/-- `IAccount.SuggestGasTipCap`: EIP-1559 priority-fee suggestion. -/
def IAccount.SuggestGasTipCap (a : IAccount) : Except String Int :=
  a.chain.suggestGasTipCap

/-- `IAccount.EstimateGas` from `ievm/account_core.go`: validate the optional
`from`/`to` addresses, then ask the client for a gas estimate. -/
def IAccount.EstimateGas (a : IAccount) (fromAddr toAddr : String)
    (value : Int) (data : List Nat) : Except String Nat :=
  if fromAddr ≠ "" ∧ ¬ IsValidAddress fromAddr then
    .error ("无效 from 地址: " ++ fromAddr)
  else if toAddr ≠ "" ∧ ¬ IsValidAddress toAddr then
    .error ("无效 to 地址: " ++ toAddr)
  else a.chain.estimateGasRPC

/-- `GasParams` from `ievm/account_utils.go`.  `ProcessGasParams` always
populates both fields, so the price is a plain `Int` here. -/
structure GasParams where
  gasLimit : Nat
  gasPrice : Int
deriving DecidableEq

/-- `IAccount.ProcessGasParams` from `ievm/account_utils.go`: a gas limit of 0
means auto-estimate (propagating the estimation error, wrapped); a `none` gas
price means query the suggestion (likewise wrapped on failure). -/
def IAccount.ProcessGasParams (a : IAccount) (gasLimit : Nat)
    (gasPrice : Option Int) (toStr : String) (value : Int) (data : List Nat) :
    Except String GasParams :=
  let limitRes : Except String Nat :=
    if gasLimit = 0 then
      match a.EstimateGas a.address toStr value data with
      | .error e => .error ("估算 Gas 限制失败: " ++ e)
      | .ok g => .ok g
    else .ok gasLimit
  match limitRes with
  | .error e => .error e
  | .ok finalGasLimit =>
    match gasPrice with
    | some p => .ok { gasLimit := finalGasLimit, gasPrice := p }
    | none =>
      match a.SuggestGasPrice with
      | .error e => .error ("获取 Gas 价格建议失败: " ++ e)
      | .ok p => .ok { gasLimit := finalGasLimit, gasPrice := p }

/-- Payload of a signed legacy transaction (`types.LegacyTx`): the fields the
builders set; `recipient` embeds the Go `To *common.Address` field
(`none` = nil = contract creation). -/
structure LegacyTx where
  nonce : Nat
  recipient : Option String
  value : Int
  gas : Nat
  gasPrice : Int
  data : List Nat
deriving DecidableEq

/-- Payload of a signed EIP-1559 transaction (`types.DynamicFeeTx`). -/
structure DynamicFeeTx where
  chainId : Int
  nonce : Nat
  gasTipCap : Int
  gasFeeCap : Int
  gas : Nat
  recipient : Option String
  value : Int
  data : List Nat
deriving DecidableEq

/-- The all-zero 20-byte address (`common.Address\x7b\x7d`), as its hex string. -/
def zeroAddressHex : String := "0x0000000000000000000000000000000000000000"

/-- The `var toPtr *common.Address` block repeated verbatim at the top of
`BuildLegacy` and `BuildDynamic` (both packages): an empty `to` resolves to
nil, a non-empty one must pass `IsValidAddress`. -/
def resolveRecipient (toStr : String) : Except String (Option String) :=
  if toStr ≠ "" then
    if ¬ IsValidAddress toStr then .error ("无效 to 地址: " ++ toStr)
    else .ok (some toStr)
  else .ok none

/-- The nonce resolution block of the builders: an explicit `nonceOpt`
is used verbatim, otherwise the pending nonce of the account's own address
is queried. -/
def resolveNonce (acc : IAccount) (nonceOpt : Option Nat) : Except String Nat :=
  match nonceOpt with
  | some n => .ok n
  | none => acc.Nonce acc.address

/-- The gas-limit resolution block of the builders: 0 means auto-estimate. -/
def resolveGasLimit (acc : IAccount) (gasLimit : Nat) (toStr : String)
    (value : Int) (data : List Nat) : Except String Nat :=
  if gasLimit = 0 then acc.EstimateGas acc.address toStr value data
  else .ok gasLimit

/-- `BuildLegacy` from `ievm/erc721.go`: resolve the optional `to`
(empty string means contract creation via `types.NewContractCreation`, whose
`To` is nil), the nonce, the gas price and the gas limit by the 0/nil
convention (each `if err != nil { return nil, err }` becomes a bind), then
sign with the EIP-155 signer.  Signing leaves all payload fields unchanged,
so the embedding returns the payload. -/
def BuildLegacy (acc : IAccount) (toStr : String) (value : Int)
    (data : List Nat) (gasLimit : Nat) (gasPrice : Option Int)
    (nonceOpt : Option Nat) : Except String LegacyTx :=
  (resolveRecipient toStr).bind fun toPtr =>
  (resolveNonce acc nonceOpt).bind fun nonce =>
  (match gasPrice with
   | some p => Except.ok p
   | none => acc.SuggestGasPrice).bind fun gp =>
  (resolveGasLimit acc gasLimit toStr value data).bind fun gl =>
  .ok { nonce := nonce, recipient := toPtr, value := value, gas := gl,
        gasPrice := gp, data := data }

/-- `BuildLegacy` from the older `evm` package (`part_001`): identical
resolution, but the assembly starts from
`types.NewTransaction(nonce, common.Address{}, ...)` and only overwrites the
recipient when `toPtr != nil` — an empty `to` therefore yields a transaction
TO THE ZERO ADDRESS, not a contract creation. -/
def BuildLegacyEvm (acc : IAccount) (toStr : String) (value : Int)
    (data : List Nat) (gasLimit : Nat) (gasPrice : Option Int)
    (nonceOpt : Option Nat) : Except String LegacyTx :=
  (resolveRecipient toStr).bind fun toPtr =>
  (resolveNonce acc nonceOpt).bind fun nonce =>
  (match gasPrice with
   | some p => Except.ok p
   | none => acc.SuggestGasPrice).bind fun gp =>
  (resolveGasLimit acc gasLimit toStr value data).bind fun gl =>
  .ok { nonce := nonce, recipient := some (toPtr.getD zeroAddressHex),
        value := value, gas := gl, gasPrice := gp, data := data }

/-- `BuildDynamic` from `ievm/erc721.go` (identical logic in the `evm`
package's rendition): resolve `to`, nonce, tip cap, fee cap and gas limit in
source order; a `none` fee cap is derived as `SuggestGasPrice * 2`, raised to
the tip cap if still lower; sign with the London signer (payload-preserving). -/
def BuildDynamic (acc : IAccount) (toStr : String) (value : Int)
    (data : List Nat) (gasLimit : Nat)
    (maxFeePerGas maxPriorityFeePerGas : Option Int) (nonceOpt : Option Nat) :
    Except String DynamicFeeTx :=
  (resolveRecipient toStr).bind fun toPtr =>
  (resolveNonce acc nonceOpt).bind fun nonce =>
  (match maxPriorityFeePerGas with
   | some t => Except.ok t
   | none => acc.SuggestGasTipCap).bind fun tip =>
  (match maxFeePerGas with
   | some f => Except.ok f
   | none =>
     (acc.SuggestGasPrice).bind fun base =>
       .ok (if base * 2 < tip then tip else base * 2)).bind fun fee =>
  (resolveGasLimit acc gasLimit toStr value data).bind fun gl =>
  .ok { chainId := acc.chainId, nonce := nonce, gasTipCap := tip,
        gasFeeCap := fee, gas := gl, recipient := toPtr, value := value,
        data := data }


end Gokit

namespace Gokit

/-- `GasStrategy` from `ievm/account_examples.go` (`Auto` is iota 0). -/
inductive GasStrategy where
  | auto
  | fast
  | standard
  | slow
deriving DecidableEq

/-- `IAccount.GetDynamicGasPrice` from `ievm` (rendition in `part_011`):
the suggested legacy price raised by 10% (integer arithmetic; `big.Int.Div`
is Euclidean division, which `/` on `Int` implements here). -/
def IAccount.GetDynamicGasPrice (a : IAccount) : Except String Int :=
  match a.SuggestGasPrice with
  | .error e => .error e
  | .ok gasPrice => .ok (gasPrice * 110 / 100)

/-- `IAccount.GetOptimalGasPrice` from `ievm/account_utils.go`: the larger of
the suggestion and the 10%-raised dynamic price; if the dynamic query fails,
fall back to the base suggestion. -/
def IAccount.GetOptimalGasPrice (a : IAccount) : Except String Int :=
  match a.SuggestGasPrice with
  | .error e => .error e
  | .ok basePrice =>
    match a.GetDynamicGasPrice with
    | .error _ => .ok basePrice
    | .ok dynamicPrice =>
      if basePrice < dynamicPrice then .ok dynamicPrice else .ok basePrice

/-- `IAccount.GetGasByStrategy` from `ievm/account_examples.go`: Fast raises
the suggestion by 50%, Slow lowers it by 20%, Standard returns it verbatim,
Auto delegates to `GetOptimalGasPrice` (all percentage scalings floored by
`big.Int.Div`). -/
def IAccount.GetGasByStrategy (a : IAccount) (strategy : GasStrategy) :
    Except String Int :=
  match a.SuggestGasPrice with
  | .error e => .error e
  | .ok basePrice =>
    match strategy with
    | .auto => a.GetOptimalGasPrice
    | .fast => .ok (basePrice * 150 / 100)
    | .standard => .ok basePrice
    | .slow => .ok (basePrice * 80 / 100)

/-- `types.ReceiptStatusFailed`. -/
def receiptStatusFailed : Nat := 0

/-- Outcome of one `TransactionReceipt` query inside the `SendTx` poll loop:
`ethereum.NotFound`, some other transport error, a receipt with its status,
or the (client-impossible) nil-receipt-nil-error case the code also guards. -/
inductive PollResult where
  | notFound
  | rpcFailure (msg : String)
  | found (status : Nat)
  | nilReceipt
deriving DecidableEq

/-- Environment of one `SendTx` call: the result of `SendTransaction`
(`some msg` = rejection) and the outcome of the k-th receipt query. -/
structure SendEnv where
  submitResult : Option String
  receiptAt : Nat → PollResult

/-- A signed transaction as `SendTx` consumes it: only its hash (hex) matters
to the send/poll protocol. -/
structure SignedTxRef where
  hashHex : String
deriving DecidableEq

/-- `common.Hash\x7b\x7d`, the zero hash, as its hex string. -/
def zeroHashHex : String :=
  "0x0000000000000000000000000000000000000000000000000000000000000000"

/-- The timeout error of `SendTx` (`等待交易上链超时: %s`). -/
def timeoutMsg (h : String) : String := "等待交易上链超时: " ++ h

/-- The mined-but-reverted error of `SendTx` (`交易执行失败(status=0), tx: %s`). -/
def minedFailedMsg (h : String) : String := "交易执行失败(status=0), tx: " ++ h

/-- The 30-second deadline over the 1-second ticker: number of remaining
ticks the poll loop may consume. -/
def sendDeadlineTicks : Nat := 30

/-- The poll loop of `SendTx` from `ievm/account_tx.go`.  `fuel` counts the
ticks left before `waitCtx.Done()` fires; `k` indexes the receipt queries.
Wall-clock timing is abstracted into the fuel bound. -/
def sendTxLoop (receiptAt : Nat → PollResult) (h : String) :
    Nat → Nat → String × Option String
  | 0, k =>
    match receiptAt k with
    | .rpcFailure msg => (h, some msg)
    | .found status =>
      if status = receiptStatusFailed then (h, some (minedFailedMsg h))
      else (h, none)
    | .notFound => (h, some (timeoutMsg h))
    | .nilReceipt => (h, some (timeoutMsg h))
  | fuel + 1, k =>
    match receiptAt k with
    | .rpcFailure msg => (h, some msg)
    | .found status =>
      if status = receiptStatusFailed then (h, some (minedFailedMsg h))
      else (h, none)
    | .notFound => sendTxLoop receiptAt h fuel (k + 1)
    | .nilReceipt => sendTxLoop receiptAt h fuel (k + 1)

/-- `IAccount.SendTx` from `ievm/account_tx.go`: submit the raw transaction
(rejection returns the zero hash and the raw error), then poll for a receipt
under the deadline. -/
def SendTx (env : SendEnv) (tx : SignedTxRef) : String × Option String :=
  match env.submitResult with
  | some e => (zeroHashHex, some e)
  | none => sendTxLoop env.receiptAt tx.hashHex sendDeadlineTicks 0

end Gokit

namespace Gokit

/-- `bip32.FirstHardenedChild` (0x80000000). -/
def FirstHardenedChild : Nat := 2 ^ 31

/-- The `harden` closure of `NewWithMnemonicIndex`: `i | bip32.FirstHardenedChild`. -/
def harden (i : Nat) : Nat := i ||| FirstHardenedChild

/-- An extended key as `NewWithMnemonicIndex` consumes it: only its 33/32-byte
key material is read (`ki.Key`); the chain-code bookkeeping stays inside the
primitives. -/
structure XKey where
  key : List Nat
deriving DecidableEq

/-- The external key-derivation collaborators of `NewWithMnemonicIndex`
(go-bip39, go-bip32, go-ethereum crypto) — libraries outside this repository,
abstracted as deterministic primitives.  `newChildKey` returns `none` when
`bip32.Key.NewChildKey` errors (the Go code discards that error and would
crash on the nil key; either way no account is produced). -/
structure Bip32Prims where
  isMnemonicValid : String → Bool
  newSeed : String → String → List Nat
  newMasterKey : List Nat → Except String XKey
  newChildKey : XKey → Nat → Option XKey
  toECDSA : List Nat → Except String (List Nat)
  pubkeyToAddress : List Nat → String

/-- Normalise the derived key material to exactly 32 bytes, as the
`len(privBytes) != 32` block of `NewWithMnemonicIndex` does: keep the last 32
bytes if longer, left-pad with zero bytes if shorter. -/
def normalize32 (privBytes : List Nat) : List Nat :=
  if privBytes.length = 32 then privBytes
  else if 32 < privBytes.length then privBytes.drop (privBytes.length - 32)
  else List.replicate (32 - privBytes.length) 0 ++ privBytes

/-- The five child-key steps of `NewWithMnemonicIndex`, in source order:
`m/44'/60'/0'/0/uint32(index)`.  The Go conversion `uint32(index)` reduces
the (already clamped, hence non-negative) index modulo 2^32. -/
def deriveChildSeq (P : Bip32Prims) (master : XKey) (index : Int) : Option XKey :=
  (P.newChildKey master (harden 44)).bind fun k44 =>
  (P.newChildKey k44 (harden 60)).bind fun k60 =>
  (P.newChildKey k60 (harden 0)).bind fun k0h =>
  (P.newChildKey k0h 0).bind fun k0 =>
  P.newChildKey k0 (index.toNat % 2 ^ 32)

/-- The derivation path `m/44'/60'/0'/0/{index}` as the list of child indices,
written from the spec's words (hardened 44, 60, 0; non-hardened 0, index). -/
def derivationPath (index : Int) : List Nat :=
  [harden 44, harden 60, harden 0, 0, index.toNat % 2 ^ 32]

/-- Spec-side rendering of the child-key chain: fold `newChildKey` over the
fixed `derivationPath`. -/
def deriveChildPath (P : Bip32Prims) (master : XKey) (index : Int) : Option XKey :=
  (derivationPath index).foldlM (fun k j => P.newChildKey k j) master

/-- The key-derivation portion of `NewWithMnemonicIndex` from
`ievm/account_core.go`: validate the mnemonic, clamp a negative index to 0,
derive the seed (empty passphrase), the BIP32 master key, the five child
keys along `m/44'/60'/0'/0/{index}`, normalise to 32 bytes, convert to an
ECDSA key and compute the address.  Returns (private key bytes, address).
The subsequent RPC dial and chain-id discovery touch neither value. -/
def deriveAccount (P : Bip32Prims) (mnemonic : String) (index : Int) :
    Except String (List Nat × String) :=
  if mnemonic = "" then .error "助记词不能为空"
  else
    let index := if index < 0 then 0 else index
    if ¬ P.isMnemonicValid mnemonic then .error "无效助记词"
    else
      let seed := P.newSeed mnemonic ""
      match P.newMasterKey seed with
      | .error e => .error ("创建主密钥失败: " ++ e)
      | .ok master =>
        match deriveChildSeq P master index with
        | none => .error "派生子密钥失败"
        | some ki =>
          let privBytes := normalize32 ki.key
          match P.toECDSA privBytes with
          | .error e => .error ("转换私钥失败: " ++ e)
          | .ok priv => .ok (priv, P.pubkeyToAddress priv)

end Gokit

namespace Gokit

/-! ### Concrete fixtures used by witnesses and counterexamples -/

/-- A well-formed 0x-40-hex-digit address. -/
def addrOk : String := "0xaaaaaaaaaaaaaaaaaaaaaaaaaaaaaaaaaaaaaaaa"

/-- A chain whose every RPC query succeeds. -/
def chainOk : Chain :=
  { pendingNonce := .ok 7, suggestGasPrice := .ok 100,
    suggestGasTipCap := .ok 3, estimateGasRPC := .ok 21000 }

/-- An account on `chainOk`. -/
def accOk : IAccount := { chainId := 1, address := addrOk, chain := chainOk }

/-- An account whose gas-estimation RPC fails. -/
def accBadEstimate : IAccount :=
  { chainId := 1, address := addrOk,
    chain := { chainOk with estimateGasRPC := .error "boom" } }

/-- A send environment that accepts the submission but never finds a receipt. -/
def envTimeout : SendEnv := { submitResult := none, receiptAt := fun _ => .notFound }

/-- A send environment whose first receipt has failed status. -/
def envRevert : SendEnv := { submitResult := none, receiptAt := fun _ => .found 0 }

/-- A send environment whose first receipt has success status. -/
def envSuccess : SendEnv := { submitResult := none, receiptAt := fun _ => .found 1 }

/-- A send environment that rejects the submission. -/
def envRejected : SendEnv :=
  { submitResult := some "nonce too low", receiptAt := fun _ => .notFound }

/-- A transaction reference for the send fixtures. -/
def txRefW : SignedTxRef := { hashHex := "0x1234" }

/-- Concrete derivation primitives for evaluating `deriveAccount`. -/
def bip32Test : Bip32Prims :=
  { isMnemonicValid := fun _ => true,
    newSeed := fun m _ => [m.length],
    newMasterKey := fun s => .ok { key := s },
    newChildKey := fun k j => some { key := j :: k.key },
    toECDSA := fun b => .ok b,
    pubkeyToAddress := fun b => String.mk (List.replicate b.length 'a') }

/-- The account derived by `bip32Test` from mnemonic "word" at index 1. -/
def derivedTest : List Nat × String :=
  ((deriveAccount bip32Test "word" 1).toOption).getD ([], "")

end Gokit

namespace Gokit

/-- The dynamic-fee transaction `BuildDynamic` produces on `accOk` for
`to = ""`, explicit `maxFeePerGas = 0` and explicit `maxPriorityFeePerGas = 5`. -/
def txFeeBelowTip : DynamicFeeTx :=
  { chainId := 1, nonce := 0, gasTipCap := 5, gasFeeCap := 0, gas := 21000,
    recipient := none, value := 0, data := [] }

/-- The dynamic-fee transaction `BuildDynamic` produces on `accOk` for
`to = ""` with `maxFeePerGas` left `none` and explicit tip 5
(fee cap derived as `2 * 100 = 200`). -/
def txFeeDerived : DynamicFeeTx :=
  { chainId := 1, nonce := 0, gasTipCap := 5, gasFeeCap := 200, gas := 21000,
    recipient := none, value := 0, data := [] }

/-- `BuildLegacy accOk "" 0 [1] 21000 (some 1) (some 0)`. -/
def ltxCreate : LegacyTx :=
  { nonce := 0, recipient := none, value := 0, gas := 21000, gasPrice := 1,
    data := [1] }

/-- `BuildDynamic accOk "" 0 [1] 21000 (some 10) (some 5) (some 0)`. -/
def dtxCreate : DynamicFeeTx :=
  { chainId := 1, nonce := 0, gasTipCap := 5, gasFeeCap := 10, gas := 21000,
    recipient := none, value := 0, data := [1] }

/-- `BuildLegacyEvm accOk "" 0 [1] 21000 (some 1) (some 0)`: recipient is the
zero address, not nil. -/
def ltxZeroAddr : LegacyTx :=
  { nonce := 0, recipient := some zeroAddressHex, value := 0, gas := 21000,
    gasPrice := 1, data := [1] }

end Gokit

namespace Gokit

/-! ### Theorems settling the claims -/

/-- C5: the decimal-string conversion truncates beyond the target precision.
The first fixture of the claim holds: `"1.23"` at 6 decimals is 1230000.
The second is settled by `C5_counterexample`: `"1.234567"` at 4 decimals is
12345 (the integer-part digit 1 followed by the first four fractional digits,
truncated, not rounded), not the 1230000 the claim states.  This theorem is
the amended claim. -/
theorem C5_truncation :
    ToDecimalsFloat "1.23" 6 = .ok 1230000 ∧
    ToDecimalsFloat "1.234567" 4 = .ok 12345 :=
  ⟨rfl, rfl⟩

/-- C5, counterexample: at 4 decimal places the code maps `"1.234567"` to
`12345`, so the claim's stated value 1230000 is wrong. -/
theorem C5_counterexample :
    ToDecimalsFloat "1.234567" 4 = .ok 12345 ∧
    ToDecimalsFloat "1.234567" 4 ≠ .ok 1230000 :=
  ⟨rfl, by decide⟩

/-- C6: `IsValidAddress x = true` exactly when `x` is `"0x"` followed by 40
hex digits (either case allowed — no EIP-55 checksum validation); in
particular 39 or 41 digits, or a missing 0x, fail the match. -/
theorem C6_isValidAddress_iff (s : String) :
    IsValidAddress s = true ↔
      ∃ t : String, s = "0x" ++ t ∧ t.length = 40 ∧
        ∀ c ∈ t.data, isHexDigitChar c = true := by
  constructor
  · intro h
    obtain ⟨l⟩ := s
    match l, h with
    | c0 :: c1 :: rest, h =>
      simp only [IsValidAddress, Bool.and_eq_true, beq_iff_eq] at h
      obtain ⟨⟨⟨h0, h1⟩, hlen⟩, hall⟩ := h
      subst h0; subst h1
      refine ⟨⟨rest⟩, rfl, hlen, ?_⟩
      intro c hc
      exact List.all_eq_true.mp hall c hc
  · rintro ⟨⟨l⟩, rfl, hlen, hall⟩
    change (('0' : Char) == '0' && ('x' : Char) == 'x' &&
      l.length == 40 && l.all isHexDigitChar) = true
    have hlen' : l.length = 40 := hlen
    simp [hlen', List.all_eq_true]
    exact fun c hc => hall c hc

end Gokit

namespace Gokit

/-- C7: with a suggested base price `p ≥ 0`, the named strategies resolve to
Fast = ⌊1.5 p⌋, Slow = ⌊0.8 p⌋, Standard = p verbatim, and
Auto = max(p, ⌊1.1 p⌋) (percentage scalings floored by integer division). -/
theorem C7_gas_strategies (acc : IAccount) (p : Int)
    (hp : acc.SuggestGasPrice = .ok p) (hpos : 0 ≤ p) :
    acc.GetGasByStrategy .fast = .ok (3 * p / 2) ∧
    acc.GetGasByStrategy .slow = .ok (4 * p / 5) ∧
    acc.GetGasByStrategy .standard = .ok p ∧
    acc.GetGasByStrategy .auto = .ok (max p (11 * p / 10)) := by
  have hfast : p * 150 / 100 = 3 * p / 2 := by omega
  have hslow : p * 80 / 100 = 4 * p / 5 := by omega
  have hdyn : p * 110 / 100 = 11 * p / 10 := by omega
  refine ⟨?_, ?_, ?_, ?_⟩
  · simp [IAccount.GetGasByStrategy, hp, hfast]
  · simp [IAccount.GetGasByStrategy, hp, hslow]
  · simp [IAccount.GetGasByStrategy, hp]
  · simp only [IAccount.GetGasByStrategy, IAccount.GetOptimalGasPrice,
      IAccount.GetDynamicGasPrice, hp]
    rw [hdyn, max_def]
    split <;> split <;> (first | rfl | (simp only [Except.ok.injEq]; omega))

/-- C7, witness: on `accOk` (suggested price 100) the strategies yield
150, 80, 100 and 110. -/
theorem C7_witness :
    accOk.GetGasByStrategy .fast = .ok (3 * (100 : Int) / 2) ∧
    accOk.GetGasByStrategy .slow = .ok (4 * (100 : Int) / 5) ∧
    accOk.GetGasByStrategy .standard = .ok (100 : Int) ∧
    accOk.GetGasByStrategy .auto = .ok (max (100 : Int) (11 * 100 / 10)) :=
  C7_gas_strategies accOk 100 rfl (by decide)

end Gokit

namespace Gokit

/-- Inversion of the early-return bind: a successful composite run pins a
successful intermediate result. -/
theorem exceptBind_ok {α β : Type} {x : Except String α}
    {f : α → Except String β} {v : β} (h : x.bind f = .ok v) :
    ∃ a, x = .ok a ∧ f a = .ok v := by
  cases x with
  | error e => exact Except.noConfusion h
  | ok a => exact ⟨a, rfl, h⟩

/-- C1, amended: whenever `BuildDynamic` is called with `maxFeePerGas = none`
and returns a signed transaction, the fee cap is derived as
`2 × SuggestGasPrice`, raised to the tip cap if still lower — so
`gasFeeCap = max (2 × suggested) gasTipCap ≥ gasTipCap`.  (With an explicit
`maxFeePerGas` the cap is used verbatim and the inequality can fail, which is
what `C1_counterexample` exhibits.) -/
theorem C1_derived_feeCap_ge_tipCap (acc : IAccount) (toStr : String)
    (value : Int) (data : List Nat) (gasLimit : Nat) (tipOpt : Option Int)
    (nonceOpt : Option Nat) (tx : DynamicFeeTx)
    (h : BuildDynamic acc toStr value data gasLimit none tipOpt nonceOpt =
      .ok tx) :
    tx.gasTipCap ≤ tx.gasFeeCap ∧
      ∃ base, acc.SuggestGasPrice = .ok base ∧
        tx.gasFeeCap = max (base * 2) tx.gasTipCap := by
  unfold BuildDynamic at h
  obtain ⟨toPtr, h1, h⟩ := exceptBind_ok h
  obtain ⟨nonce, h2, h⟩ := exceptBind_ok h
  obtain ⟨tip, h3, h⟩ := exceptBind_ok h
  obtain ⟨fee, h4, h⟩ := exceptBind_ok h
  obtain ⟨gl, h5, h⟩ := exceptBind_ok h
  injection h with h
  subst h
  obtain ⟨base, hb, hf⟩ := exceptBind_ok h4
  injection hf with hf
  subst hf
  refine ⟨?_, base, hb, ?_⟩
  · dsimp only
    split <;> omega
  · dsimp only
    rw [max_def]
    split <;> split <;> omega

/-- C1, counterexample: an explicit `maxFeePerGas = 0` together with an
explicit `maxPriorityFeePerGas = 5` is signed as-is, producing a transaction
whose fee cap (0) is below its tip cap (5) — the claim's universal
`GasFeeCap ≥ GasTipCap` fails for explicit fee caps. -/
theorem C1_counterexample :
    BuildDynamic accOk "" 0 [] 21000 (some 0) (some 5) (some 0) =
      .ok txFeeBelowTip ∧
    txFeeBelowTip.gasFeeCap < txFeeBelowTip.gasTipCap :=
  ⟨rfl, by decide⟩

/-- C1, witness: on `accOk` (suggested legacy price 100) with
`maxFeePerGas = none` and tip 5, the built transaction carries
`gasFeeCap = max (100 * 2) 5 = 200 ≥ 5 = gasTipCap`. -/
theorem C1_witness :
    txFeeDerived.gasTipCap ≤ txFeeDerived.gasFeeCap ∧
      ∃ base, accOk.SuggestGasPrice = .ok base ∧
        txFeeDerived.gasFeeCap = max (base * 2) txFeeDerived.gasTipCap :=
  C1_derived_feeCap_ge_tipCap accOk "" 0 [] 21000 (some 5) (some 0)
    txFeeDerived rfl

end Gokit

namespace Gokit

/-- C2, amended: with an empty `to` and non-empty data, `ievm`'s
`BuildLegacy` and `BuildDynamic` (either package) produce a
contract-creation transaction (`To` nil); the older `evm` package's
`BuildLegacy`, however, produces a transaction whose recipient is the ZERO
ADDRESS, not a contract creation. -/
theorem C2_empty_to_behavior (acc : IAccount) (value : Int) (data : List Nat)
    (gasLimit : Nat) (gp feeOpt tipOpt : Option Int) (nonceOpt : Option Nat)
    (hd : data ≠ []) :
    (∀ ltx, BuildLegacy acc "" value data gasLimit gp nonceOpt = .ok ltx →
        ltx.recipient = none) ∧
    (∀ dtx, BuildDynamic acc "" value data gasLimit feeOpt tipOpt nonceOpt =
        .ok dtx → dtx.recipient = none) ∧
    (∀ ltx, BuildLegacyEvm acc "" value data gasLimit gp nonceOpt = .ok ltx →
        ltx.recipient = some zeroAddressHex) := by
  have hto : resolveRecipient "" = .ok none := rfl
  refine ⟨?_, ?_, ?_⟩
  · intro ltx h
    unfold BuildLegacy at h
    rw [hto] at h
    obtain ⟨toPtr, h1, h⟩ := exceptBind_ok h
    injection h1 with h1
    subst h1
    obtain ⟨nonce, h2, h⟩ := exceptBind_ok h
    obtain ⟨gpv, h3, h⟩ := exceptBind_ok h
    obtain ⟨gl, h4, h⟩ := exceptBind_ok h
    injection h with h
    subst h
    rfl
  · intro dtx h
    unfold BuildDynamic at h
    rw [hto] at h
    obtain ⟨toPtr, h1, h⟩ := exceptBind_ok h
    injection h1 with h1
    subst h1
    obtain ⟨nonce, h2, h⟩ := exceptBind_ok h
    obtain ⟨tip, h3, h⟩ := exceptBind_ok h
    obtain ⟨fee, h4, h⟩ := exceptBind_ok h
    obtain ⟨gl, h5, h⟩ := exceptBind_ok h
    injection h with h
    subst h
    rfl
  · intro ltx h
    unfold BuildLegacyEvm at h
    rw [hto] at h
    obtain ⟨toPtr, h1, h⟩ := exceptBind_ok h
    injection h1 with h1
    subst h1
    obtain ⟨nonce, h2, h⟩ := exceptBind_ok h
    obtain ⟨gpv, h3, h⟩ := exceptBind_ok h
    obtain ⟨gl, h4, h⟩ := exceptBind_ok h
    injection h with h
    subst h
    rfl

/-- C2, counterexample: the `evm` package's `BuildLegacy` with empty `to`
and non-empty data succeeds with the zero address as recipient — the decoded
transaction HAS a `to` field, so it is not a contract creation as the claim
states for "BuildLegacy as well as BuildDynamic". -/
theorem C2_counterexample :
    BuildLegacyEvm accOk "" 0 [1] 21000 (some 1) (some 0) = .ok ltxZeroAddr ∧
    ltxZeroAddr.recipient ≠ none :=
  ⟨rfl, by decide⟩

/-- C2, witness: concrete runs of the three builders with empty `to` and
data `[1]` on `accOk`. -/
theorem C2_witness :
    ltxCreate.recipient = none ∧ dtxCreate.recipient = none ∧
    ltxZeroAddr.recipient = some zeroAddressHex := by
  have h := C2_empty_to_behavior accOk 0 [1] 21000 (some 1) (some 10) (some 5)
    (some 0) (by decide)
  exact ⟨h.1 ltxCreate rfl, h.2.1 dtxCreate rfl, h.2.2 ltxZeroAddr rfl⟩

end Gokit

namespace Gokit

/-- C4: with `gasLimit = 0`, a failing gas estimation makes
`ProcessGasParams` return that error (wrapped with its context message) and
no `GasParams` value; with a nonzero `gasLimit`, the estimation oracle is
never consulted (the result is invariant under changing it) and the given
limit is returned verbatim in any successful result. -/
theorem C4_processGasParams (acc : IAccount) (toStr : String) (value : Int)
    (data : List Nat) (gp : Option Int) :
    (∀ e, acc.EstimateGas acc.address toStr value data = .error e →
        acc.ProcessGasParams 0 gp toStr value data =
          .error ("估算 Gas 限制失败: " ++ e)) ∧
    (∀ gasLimit, gasLimit ≠ 0 →
      (∀ est, IAccount.ProcessGasParams
            { acc with chain := { acc.chain with estimateGasRPC := est } }
            gasLimit gp toStr value data =
          acc.ProcessGasParams gasLimit gp toStr value data) ∧
      (∀ params, acc.ProcessGasParams gasLimit gp toStr value data =
          .ok params → params.gasLimit = gasLimit)) := by
  constructor
  · intro e he
    simp [IAccount.ProcessGasParams, he]
  · intro gasLimit hgl
    constructor
    · intro est
      simp [IAccount.ProcessGasParams, hgl, IAccount.SuggestGasPrice]
    · intro params hp
      simp only [IAccount.ProcessGasParams, hgl, if_neg] at hp
      cases gp with
      | some p =>
        simp at hp
        rw [← hp]
      | none =>
        cases hs : acc.SuggestGasPrice with
        | error e => simp [hs] at hp
        | ok p =>
          simp [hs] at hp
          rw [← hp]

/-- C4, witness: on `accBadEstimate` (estimation RPC fails with "boom") a
zero gas limit propagates the wrapped error; on `accOk` a nonzero limit
ignores the estimation oracle and is used verbatim. -/
theorem C4_witness :
    accBadEstimate.ProcessGasParams 0 none "" 0 [] =
      .error ("估算 Gas 限制失败: " ++ "boom") ∧
    IAccount.ProcessGasParams
        { accOk with chain := { accOk.chain with estimateGasRPC := .error "x" } }
        21000 (some 1) "" 0 [] =
      accOk.ProcessGasParams 21000 (some 1) "" 0 [] ∧
    ({ gasLimit := 21000, gasPrice := 1 } : GasParams).gasLimit = 21000 := by
  refine ⟨(C4_processGasParams accBadEstimate "" 0 [] none).1 "boom" rfl,
    ((C4_processGasParams accOk "" 0 [] (some 1)).2 21000 (by decide)).1
      (.error "x"),
    ((C4_processGasParams accOk "" 0 [] (some 1)).2 21000 (by decide)).2
      { gasLimit := 21000, gasPrice := 1 } rfl⟩

end Gokit

namespace Gokit

/-- The first component of the poll loop's result is always the transaction
hash it was given. -/
theorem sendTxLoop_fst (receiptAt : Nat → PollResult) (h : String) :
    ∀ fuel k, (sendTxLoop receiptAt h fuel k).1 = h := by
  intro fuel
  induction fuel with
  | zero =>
    intro k
    rw [sendTxLoop]
    cases hr : receiptAt k
    case notFound => rfl
    case rpcFailure msg => rfl
    case nilReceipt => rfl
    case found status =>
      show (if status = receiptStatusFailed then (h, some (minedFailedMsg h))
        else (h, none)).1 = h
      split <;> rfl
  | succ fuel' ih =>
    intro k
    rw [sendTxLoop]
    cases hr : receiptAt k
    case notFound => exact ih (k + 1)
    case rpcFailure msg => rfl
    case nilReceipt => exact ih (k + 1)
    case found status =>
      show (if status = receiptStatusFailed then (h, some (minedFailedMsg h))
        else (h, none)).1 = h
      split <;> rfl

/-- If the first `n` polls find nothing and the n-th (still within the
deadline) finds a receipt with status `s`, the loop ends with the
status-determined outcome. -/
theorem sendTxLoop_poll_found (receiptAt : Nat → PollResult) (h : String)
    (s : Nat) :
    ∀ n fuel k, n ≤ fuel →
      (∀ j, j < n → receiptAt (k + j) = .notFound) →
      receiptAt (k + n) = .found s →
      sendTxLoop receiptAt h fuel k =
        if s = receiptStatusFailed then (h, some (minedFailedMsg h))
        else (h, none) := by
  intro n
  induction n with
  | zero =>
    intro fuel k _ _ hfound
    rw [Nat.add_zero] at hfound
    cases fuel with
    | zero => rw [sendTxLoop, hfound]
    | succ fuel' => rw [sendTxLoop, hfound]
  | succ n ih =>
    intro fuel k hle hprev hfound
    cases fuel with
    | zero => omega
    | succ fuel' =>
      have h0 : receiptAt k = .notFound := by
        have := hprev 0 (Nat.succ_pos n)
        rwa [Nat.add_zero] at this
      rw [sendTxLoop, h0]
      show sendTxLoop receiptAt h fuel' (k + 1) = _
      refine ih fuel' (k + 1) (by omega) ?_ ?_
      · intro j hj
        have := hprev (j + 1) (by omega)
        rwa [show k + (j + 1) = k + 1 + j by omega] at this
      · rwa [show k + (n + 1) = k + 1 + n by omega] at hfound

/-- If every poll within the deadline finds nothing, the loop times out. -/
theorem sendTxLoop_timeout (receiptAt : Nat → PollResult) (h : String) :
    ∀ fuel k, (∀ j, j ≤ fuel → receiptAt (k + j) = .notFound) →
      sendTxLoop receiptAt h fuel k = (h, some (timeoutMsg h)) := by
  intro fuel
  induction fuel with
  | zero =>
    intro k hall
    have h0 : receiptAt k = .notFound := by
      have := hall 0 (Nat.le_refl 0)
      rwa [Nat.add_zero] at this
    rw [sendTxLoop, h0]
  | succ fuel' ih =>
    intro k hall
    have h0 : receiptAt k = .notFound := by
      have := hall 0 (by omega)
      rwa [Nat.add_zero] at this
    rw [sendTxLoop, h0]
    show sendTxLoop receiptAt h fuel' (k + 1) = _
    refine ih (k + 1) ?_
    intro j hj
    have := hall (j + 1) (by omega)
    rwa [show k + (j + 1) = k + 1 + j by omega] at this

/-- The mined-but-reverted message and the timeout message never coincide
(their fixed parts have different lengths: 22 vs 10 characters). -/
theorem minedFailed_ne_timeout (h : String) :
    minedFailedMsg h ≠ timeoutMsg h := by
  intro he
  have hlen := congrArg String.length he
  rw [minedFailedMsg, timeoutMsg, String.length_append,
    String.length_append] at hlen
  have l1 : ("交易执行失败(status=0), tx: " : String).length = 22 := rfl
  have l2 : ("等待交易上链超时: " : String).length = 10 := rfl
  omega

/-- C3: once a submission is accepted, `SendTx` distinguishes its outcomes —
a receipt with failed status yields the mined-but-reverted error, no receipt
before the deadline yields the timeout error, a success-status receipt
yields no error, and the two error kinds are distinct. -/
theorem C3_sendTx_error_kinds (env : SendEnv) (tx : SignedTxRef)
    (hsub : env.submitResult = none) :
    (∀ n, n ≤ sendDeadlineTicks →
       (∀ j, j < n → env.receiptAt j = .notFound) →
       env.receiptAt n = .found receiptStatusFailed →
       SendTx env tx = (tx.hashHex, some (minedFailedMsg tx.hashHex))) ∧
    (∀ n s, n ≤ sendDeadlineTicks →
       (∀ j, j < n → env.receiptAt j = .notFound) →
       env.receiptAt n = .found s → s ≠ receiptStatusFailed →
       SendTx env tx = (tx.hashHex, none)) ∧
    ((∀ j, j ≤ sendDeadlineTicks → env.receiptAt j = .notFound) →
       SendTx env tx = (tx.hashHex, some (timeoutMsg tx.hashHex))) ∧
    minedFailedMsg tx.hashHex ≠ timeoutMsg tx.hashHex := by
  refine ⟨?_, ?_, ?_, minedFailed_ne_timeout tx.hashHex⟩
  · intro n hn hprev hfound
    rw [SendTx, hsub]
    have := sendTxLoop_poll_found env.receiptAt tx.hashHex
      receiptStatusFailed n sendDeadlineTicks 0 hn
      (by intro j hj; simpa using hprev j hj) (by simpa using hfound)
    rwa [if_pos rfl] at this
  · intro n s hn hprev hfound hs
    rw [SendTx, hsub]
    have := sendTxLoop_poll_found env.receiptAt tx.hashHex s n
      sendDeadlineTicks 0 hn
      (by intro j hj; simpa using hprev j hj) (by simpa using hfound)
    rwa [if_neg hs] at this
  · intro hall
    rw [SendTx, hsub]
    exact sendTxLoop_timeout env.receiptAt tx.hashHex sendDeadlineTicks 0
      (by intro j hj; simpa using hall j hj)

/-- C3, witness: concrete runs — an immediately failed receipt, an
immediately successful receipt, and a never-found receipt. -/
theorem C3_witness :
    SendTx envRevert txRefW =
      (txRefW.hashHex, some (minedFailedMsg txRefW.hashHex)) ∧
    SendTx envSuccess txRefW = (txRefW.hashHex, none) ∧
    SendTx envTimeout txRefW =
      (txRefW.hashHex, some (timeoutMsg txRefW.hashHex)) ∧
    minedFailedMsg txRefW.hashHex ≠ timeoutMsg txRefW.hashHex := by
  refine ⟨?_, ?_, ?_, ?_⟩
  · exact (C3_sendTx_error_kinds envRevert txRefW rfl).1 0 (by omega)
      (by intro j hj; omega) rfl
  · exact (C3_sendTx_error_kinds envSuccess txRefW rfl).2.1 0 1 (by omega)
      (by intro j hj; omega) rfl (by decide)
  · exact (C3_sendTx_error_kinds envTimeout txRefW rfl).2.2.1
      (fun j hj => rfl)
  · exact (C3_sendTx_error_kinds envTimeout txRefW rfl).2.2.2

/-- C9: whenever the raw submission succeeds, every return of `SendTx` —
success, mined-but-reverted, timeout, receipt transport error — carries the
transaction's hash as its first component; the zero hash accompanies (only)
a rejected submission, which returns the raw rejection error. -/
theorem C9_hash_on_every_return (env : SendEnv) (tx : SignedTxRef) :
    (env.submitResult = none → (SendTx env tx).1 = tx.hashHex) ∧
    (∀ e, env.submitResult = some e → SendTx env tx = (zeroHashHex, some e)) := by
  constructor
  · intro hs
    rw [SendTx, hs]
    exact sendTxLoop_fst env.receiptAt tx.hashHex sendDeadlineTicks 0
  · intro e hs
    rw [SendTx, hs]

/-- C9, witness: an accepted submission returns the transaction hash, a
rejected one the zero hash with the raw error. -/
theorem C9_witness :
    (SendTx envSuccess txRefW).1 = txRefW.hashHex ∧
    SendTx envRejected txRefW = (zeroHashHex, some "nonce too low") :=
  ⟨(C9_hash_on_every_return envSuccess txRefW).1 rfl,
   (C9_hash_on_every_return envRejected txRefW).2 "nonce too low" rfl⟩

end Gokit

namespace Gokit

/-- C8: key derivation from a mnemonic is deterministic — the pipeline
consumes no randomness, so two runs of `deriveAccount` on the same
`(mnemonic, index)` pair produce the identical private key and address —
and the child-key chain is exactly a fold over the fixed path
`m/44'/60'/0'/0/{index}`. -/
theorem C8_derivation_deterministic (P : Bip32Prims) (m : String) (i : Int)
    (hi : 0 ≤ i) (r₁ r₂ : List Nat × String)
    (h₁ : deriveAccount P m i = .ok r₁) (h₂ : deriveAccount P m i = .ok r₂) :
    (r₁.1 = r₂.1 ∧ r₁.2 = r₂.2) ∧
    ∀ master, deriveChildSeq P master i = deriveChildPath P master i := by
  constructor
  · rw [h₁] at h₂
    injection h₂ with h
    subst h
    exact ⟨rfl, rfl⟩
  · intro master
    simp only [deriveChildSeq, deriveChildPath, derivationPath, List.foldlM,
      Option.bind_eq_bind, Option.pure_def]
    simp

/-- C8, witness: two concrete runs at `(mnemonic, index) = ("word", 1)` with
the `bip32Test` primitives agree on key and address. -/
theorem C8_witness :
    (derivedTest.1 = derivedTest.1 ∧ derivedTest.2 = derivedTest.2) ∧
    ∀ master, deriveChildSeq bip32Test master 1 =
      deriveChildPath bip32Test master 1 :=
  C8_derivation_deterministic bip32Test "word" 1 (by decide)
    derivedTest derivedTest rfl rfl

/-- C10: a negative index is silently clamped to 0 — the derivation result
(and so the private key and the address) is identical to the one at index 0,
and no error is raised for the negative index. -/
theorem C10_negative_index_clamped (P : Bip32Prims) (m : String) (i : Int)
    (hneg : i < 0) :
    deriveAccount P m i = deriveAccount P m 0 := by
  unfold deriveAccount
  rw [if_pos hneg]
  norm_num

/-- C10, witness: index -1 derives exactly the account of index 0. -/
theorem C10_witness :
    deriveAccount bip32Test "word" (-1) = deriveAccount bip32Test "word" 0 :=
  C10_negative_index_clamped bip32Test "word" (-1) (by decide)

end Gokit
